import Mathlib

/-!
Verification of the twinTrim duplicate-file manager against its design
specification.  The development shallowly embeds the `cli` command of
`src/twinTrim/flags.py` (the only source file of the repository that is
available) together with spec-modelled versions of the collaborators the
file imports but whose sources are absent (`find_duplicates`,
`handleAllFlag`, `FileFilter`, `parse_size`).

Python strings are modelled as `List Char`; the f-string labels built by
the interactive checkbox prompt, Python `int()` on decimal strings, and
`str.split(")")[0]` are embedded faithfully so that the label round-trip
used to map selected checkbox entries back to paths can be analysed.
-/

namespace TwinTrim

/-- Python strings are modelled as lists of characters. -/
abbrev PyStr := List Char

/-- The decimal digit character for a single digit value, as produced by
Python `str` formatting of a nonnegative integer. -/
def digitChar : Nat → Char
  | 0 => '0'
  | 1 => '1'
  | 2 => '2'
  | 3 => '3'
  | 4 => '4'
  | 5 => '5'
  | 6 => '6'
  | 7 => '7'
  | 8 => '8'
  | 9 => '9'
  | _ => '*'

/-- Numeric value of a decimal digit character, as used by Python `int()`. -/
def charDigit (c : Char) : Nat := c.toNat - 48

/-- Fuel-driven accumulator loop producing the decimal digit characters of
`n` (most significant first) in front of `acc`. -/
def natStrGo : Nat → Nat → PyStr → PyStr
  | _, 0, acc => acc
  | n, fuel + 1, acc =>
    if n = 0 then acc else natStrGo (n / 10) fuel (digitChar (n % 10) :: acc)

/-- Python `str(n)` for a nonnegative integer `n`: its decimal digit
characters, most significant first. -/
def natStr (n : Nat) : PyStr := if n = 0 then ['0'] else natStrGo n n []

/-- Python `int(s)` restricted to strings of decimal digits (the only
strings the cli ever feeds to `int`). -/
def pyInt (s : PyStr) : Nat := s.foldl (fun acc c => 10 * acc + charDigit c) 0

theorem natStrGo_acc (n fuel : Nat) (acc : PyStr) :
    natStrGo n fuel acc = natStrGo n fuel [] ++ acc := by
  induction fuel generalizing n acc with
  | zero => simp [natStrGo]
  | succ f ih =>
    by_cases h : n = 0
    · simp [natStrGo, h]
    · rw [natStrGo, natStrGo, if_neg h, if_neg h, ih (n / 10), ih (n / 10) [digitChar (n % 10)]]
      simp

theorem natStrGo_digits (n fuel : Nat) (hf : n ≤ fuel) :
    natStrGo n fuel [] = ((Nat.digits 10 n).reverse).map digitChar := by
  induction fuel generalizing n with
  | zero =>
    have : n = 0 := Nat.le_zero.mp hf
    subst this; simp [natStrGo]
  | succ f ih =>
    by_cases h : n = 0
    · subst h; simp [natStrGo]
    · have hn : 0 < n := Nat.pos_of_ne_zero h
      rw [natStrGo, if_neg h, natStrGo_acc]
      have hdiv : n / 10 ≤ f := by
        have h1 : n / 10 < n := Nat.div_lt_self hn (by norm_num)
        omega
      rw [ih (n / 10) hdiv, Nat.digits_def' (by norm_num : (1:Nat) < 10) hn]
      simp

theorem natStr_digits (n : Nat) (hn : 0 < n) :
    natStr n = ((Nat.digits 10 n).reverse).map digitChar := by
  rw [natStr, if_neg (Nat.pos_iff_ne_zero.mp hn)]
  exact natStrGo_digits n n le_rfl

theorem charDigit_digitChar {d : Nat} (hd : d < 10) : charDigit (digitChar d) = d := by
  interval_cases d <;> decide

theorem digitChar_isDigit {d : Nat} (hd : d < 10) : (digitChar d).isDigit = true := by
  interval_cases d <;> decide

theorem digitChar_ne_rparen {d : Nat} (hd : d < 10) : digitChar d ≠ ')' := by
  interval_cases d <;> decide

theorem natStr_mem_isDigit (n : Nat) : ∀ c ∈ natStr n, c.isDigit = true := by
  rcases Nat.eq_zero_or_pos n with h | h
  · subst h; intro c hc; simp [natStr] at hc; subst hc; decide
  · rw [natStr_digits n h]
    intro c hc
    rcases List.mem_map.mp hc with ⟨d, hd, rfl⟩
    exact digitChar_isDigit (Nat.digits_lt_base (by norm_num) (List.mem_reverse.mp hd))

theorem natStr_mem_ne_rparen (n : Nat) : ∀ c ∈ natStr n, c ≠ ')' := by
  intro c hc
  have h := natStr_mem_isDigit n c hc
  intro hcontra; subst hcontra; simp at h

theorem foldr_congr_mem {α β : Type} {l : List α} {f g : α → β → β} {b : β}
    (h : ∀ a ∈ l, ∀ x, f a x = g a x) : List.foldr f b l = List.foldr g b l := by
  induction l with
  | nil => rfl
  | cons a l ih =>
    simp only [List.foldr]
    rw [ih (fun a ha x => h a (List.mem_cons_of_mem _ ha) x), h a (List.mem_cons_self _ _)]

theorem pyInt_natStr (n : Nat) : pyInt (natStr n) = n := by
  rcases Nat.eq_zero_or_pos n with h | h
  · subst h; decide
  · rw [natStr_digits n h, pyInt, List.map_reverse, List.foldl_reverse]
    have hstep : List.foldr (fun c acc => 10 * acc + charDigit c) 0
        ((Nat.digits 10 n).map digitChar)
        = List.foldr (fun d acc => (d : Nat) + 10 * acc) 0 (Nat.digits 10 n) := by
      rw [List.foldr_map]
      exact foldr_congr_mem (fun d hd x => by
        rw [charDigit_digitChar (Nat.digits_lt_base (by norm_num) hd)]; omega)
    have hof : ∀ L : List Nat,
        List.foldr (fun d acc => d + 10 * acc) 0 L = Nat.ofDigits 10 L := by
      intro L
      induction L with
      | nil => simp
      | cons d L ih => simp [Nat.ofDigits_cons, ih]
    rw [hstep, hof, Nat.ofDigits_digits]

/-- The checkbox label built by the interactive prompt (flags.py line 98):
Python f-string `{idx + 1}) {duplicate} (Size: {size} bytes)`. -/
def mkOption (idx : Nat) (path : PyStr) (size : Nat) : PyStr :=
  natStr (idx + 1) ++ ") ".toList ++ path ++ " (Size: ".toList ++ natStr size ++ " bytes)".toList

/-- Python `option.split(")")[0]`: the text strictly before the first
right parenthesis (flags.py line 119). -/
def splitParen0 (s : PyStr) : PyStr := s.takeWhile (fun c => decide (c ≠ ')'))

/-- Models `duplicates_list[int(option.split(")")[0]) - 1]` at flags.py
line 119: recover the path a selected checkbox label stands for by parsing
the leading index back out of the label. -/
def decodeOption (dl : List PyStr) (opt : PyStr) : PyStr :=
  dl.getD (pyInt (splitParen0 opt) - 1) []

/-- The path a checkbox label displays: the text strictly between the
leading `<index>) ` and the trailing ` (Size: <n> bytes)` annotation, read
off by stripping the unambiguous suffix from the right and the index from
the left. -/
def labelPath (s : PyStr) : PyStr :=
  ((((s.reverse.drop 7).dropWhile Char.isDigit).drop 8).reverse.dropWhile Char.isDigit).drop 2

theorem takeWhile_append_all {p : Char → Bool} {a b : PyStr}
    (h : ∀ c ∈ a, p c = true) :
    List.takeWhile p (a ++ b) = a ++ List.takeWhile p b := by
  induction a with
  | nil => simp
  | cons c a ih =>
    rw [List.cons_append, List.takeWhile_cons, if_pos (h c (List.mem_cons_self _ _)),
      ih (fun x hx => h x (List.mem_cons_of_mem _ hx)), List.cons_append]

theorem dropWhile_append_all {p : Char → Bool} {a b : PyStr}
    (h : ∀ c ∈ a, p c = true) :
    List.dropWhile p (a ++ b) = List.dropWhile p b := by
  induction a with
  | nil => simp
  | cons c a ih =>
    rw [List.cons_append, List.dropWhile_cons, if_pos (h c (List.mem_cons_self _ _))]
    exact ih (fun x hx => h x (List.mem_cons_of_mem _ hx))

theorem splitParen0_mkOption (idx : Nat) (path : PyStr) (size : Nat) :
    splitParen0 (mkOption idx path size) = natStr (idx + 1) := by
  rw [mkOption, splitParen0]
  have hd : ∀ c ∈ natStr (idx + 1), (fun c => decide (c ≠ ')')) c = true := by
    intro c hc
    simpa using natStr_mem_ne_rparen (idx + 1) c hc
  simp only [List.append_assoc]
  rw [takeWhile_append_all hd]
  simp [List.takeWhile_cons, String.toList]

theorem decodeOption_mkOption (dl : List PyStr) (idx : Nat) (path : PyStr) (size : Nat) :
    decodeOption dl (mkOption idx path size) = dl.getD idx [] := by
  rw [decodeOption, splitParen0_mkOption, pyInt_natStr]
  simp

theorem dropWhile_digits_natStr (n : Nat) (b : PyStr) :
    List.dropWhile Char.isDigit (natStr n ++ b) = List.dropWhile Char.isDigit b :=
  dropWhile_append_all (natStr_mem_isDigit n)

theorem dropWhile_digits_natStr_rev (n : Nat) (b : PyStr) :
    List.dropWhile Char.isDigit ((natStr n).reverse ++ b) = List.dropWhile Char.isDigit b :=
  dropWhile_append_all (fun c hc => natStr_mem_isDigit n c (List.mem_reverse.mp hc))

theorem labelPath_mkOption (idx : Nat) (path : PyStr) (size : Nat) :
    labelPath (mkOption idx path size) = path := by
  rw [labelPath, mkOption]
  have h1 : (natStr (idx + 1) ++ ") ".toList ++ path ++ " (Size: ".toList ++ natStr size
      ++ " bytes)".toList).reverse
      = " bytes)".toList.reverse ++ ((natStr size).reverse ++ (" (Size: ".toList.reverse
        ++ (path.reverse ++ (") ".toList.reverse ++ (natStr (idx + 1)).reverse)))) := by
    simp [List.reverse_append]
  rw [h1]
  have h2 : (" bytes)".toList.reverse).length = 7 := by decide
  rw [← h2, List.drop_left, dropWhile_digits_natStr_rev]
  have h3 : " (Size: ".toList.reverse ++ (path.reverse ++ (") ".toList.reverse
      ++ (natStr (idx + 1)).reverse))
      = ' ' :: (':' :: 'e' :: 'z' :: 'i' :: 'S' :: '(' :: ' ' ::
        (path.reverse ++ (") ".toList.reverse ++ (natStr (idx + 1)).reverse))) := by
    simp [String.toList]
  rw [h3, List.dropWhile_cons, if_neg (by decide)]
  have h4 : List.drop 8 (' ' :: (':' :: 'e' :: 'z' :: 'i' :: 'S' :: '(' :: ' ' ::
      (path.reverse ++ (") ".toList.reverse ++ (natStr (idx + 1)).reverse))))
      = path.reverse ++ (") ".toList.reverse ++ (natStr (idx + 1)).reverse) := by
    simp
  rw [h4]
  have h5 : (path.reverse ++ (") ".toList.reverse ++ (natStr (idx + 1)).reverse)).reverse
      = natStr (idx + 1) ++ (") ".toList ++ path) := by
    simp [List.reverse_append]
  rw [h5, dropWhile_digits_natStr]
  have h6 : ") ".toList ++ path = ')' :: ' ' :: path := by simp [String.toList]
  rw [h6, List.dropWhile_cons, if_neg (by decide)]
  simp

/-- The duplicate-scan filter object built by the cli (flags.py lines 37-42).
Modelled from the spec: twinTrim/dataStructures/fileFilter.py is not under
src/; the spec describes FileFilter as a plain record of two size bounds, a
file-type pattern and a set of excluded names, with no further behaviour on
assignment. -/
structure FileFilter where
  minFileSize : Nat
  maxFileSize : Nat
  fileType : PyStr
  fileExcludes : List PyStr
deriving DecidableEq

/-- Modelled from the spec: the state of `FileFilter()` before the cli
assigns its fields (the cli always overwrites the bounds and the type, and
only appends to the exclude set, so the numeric seed values are irrelevant). -/
def FileFilter.init : FileFilter := ⟨0, 0, [], []⟩

/-- Modelled from the spec: plain field assignment. -/
def FileFilter.setMinFileSize (f : FileFilter) (n : Nat) : FileFilter :=
  { f with minFileSize := n }

/-- Modelled from the spec: plain field assignment. -/
def FileFilter.setMaxFileSize (f : FileFilter) (n : Nat) : FileFilter :=
  { f with maxFileSize := n }

/-- Modelled from the spec: plain field assignment. -/
def FileFilter.setFileType (f : FileFilter) (t : PyStr) : FileFilter :=
  { f with fileType := t }

/-- Modelled from the spec: record one more excluded name. -/
def FileFilter.addFileExclude (f : FileFilter) (name : PyStr) : FileFilter :=
  { f with fileExcludes := f.fileExcludes ++ [name] }

/-- Modelled from the spec: `parse_size` (twinTrim/utils.py, not under src/)
eagerly parses user-supplied size strings such as "0kb" or "1gb" into byte
counts: a numeric prefix scaled by a kb/mb/gb unit suffix, a bare numeral
read as bytes. -/
def parse_size (s : PyStr) : Nat :=
  if s.drop (s.length - 2) = "kb".toList then pyInt (s.take (s.length - 2)) * 1024
  else if s.drop (s.length - 2) = "mb".toList then pyInt (s.take (s.length - 2)) * 1024 * 1024
  else if s.drop (s.length - 2) = "gb".toList then
    pyInt (s.take (s.length - 2)) * 1024 * 1024 * 1024
  else pyInt s

/-- The FileFilter the cli constructs, exactly once, from the user options
before any detection work starts (flags.py lines 37-42). -/
def cliFilter (min_size max_size file_type : PyStr) (exclude : List PyStr) : FileFilter :=
  exclude.foldl (fun f e => f.addFileExclude e)
    (((FileFilter.init.setMinFileSize (parse_size min_size)).setMaxFileSize
      (parse_size max_size)).setFileType file_type)

/-- The engine's error kinds, from spec section 7. -/
inductive ErrKind where
  | invalidRoot
  | traversalWarning
  | hashFailure
  | poolExhaustion
deriving DecidableEq

/-- First-occurrence-ordered key list: the iteration order of a Python dict
built by repeated insertion. -/
def keysInOrder {α : Type} [DecidableEq α] : List α → List α
  | [] => []
  | a :: l => a :: (keysInOrder l).filter (fun b => decide (b ≠ a))

/-- Modelled from the spec (section 4.5, DuplicateGrouper; flagController.py
is not under src/): group the scanned paths by digest; every digest group
with at least two members becomes a duplicate set whose original is the
earliest member in scan order, the others keeping their relative scan
order; sets are ordered by the scan position of their original. -/
def dupSets {α β : Type} [DecidableEq α] [DecidableEq β] (scan : List α) (d : α → β) :
    List (α × List α) :=
  (keysInOrder (scan.map d)).filterMap (fun k =>
    match scan.filter (fun p => decide (d p = k)) with
    | p :: q :: rest => some (p, q :: rest)
    | _ => none)

/-- Modelled from the spec (section 2 data flow): the report flattened into
the ordered sequence of (original, duplicate) pairs, the shape the cli
consumes. -/
def dupPairs {α β : Type} [DecidableEq α] [DecidableEq β] (scan : List α) (d : α → β) :
    List (α × α) :=
  (dupSets scan d).flatMap (fun s => s.2.map (fun q => (s.1, q)))

/-- Association-list lookup, used to reconstruct each path's hash outcome
from the unordered worker-pool results (spec section 4.4: the consumer must
be able to tell which paths succeeded regardless of completion order). -/
def pyLookup {α β : Type} [DecidableEq α] (a : α) : List (α × β) → Option β
  | [] => none
  | (x, y) :: l => if x = a then some y else pyLookup a l

/-- The hash outcome a delivered result list assigns to a path: some digest
on success, none for a path whose hashing failed or that was never hashed. -/
def digOf {α β : Type} [DecidableEq α] (results : List (α × Option β)) (p : α) : Option β :=
  match pyLookup p results with
  | some r => r
  | none => none

/-- Modelled from the spec (sections 4.4, 4.5 and 5): the grouping pass runs
only after the whole pool has drained; it consumes the complete delivered
result list, excludes hash failures, and groups the surviving paths by
digest in scan order. -/
def groupResults {α β : Type} [DecidableEq α] [DecidableEq β]
    (scan : List α) (results : List (α × Option β)) : List (α × α) :=
  dupPairs (scan.filter (fun p => (digOf results p).isSome)) (digOf results)

/-- One engine invocation's environment: validity of the root, availability
of the worker pool, the deterministic scan order, and the hasher results in
their (arbitrary) delivery order. -/
structure EngineInput (α β : Type) where
  rootIsDir : Bool
  poolOk : Bool
  scan : List α
  results : List (α × Option β)

/-- Modelled from the spec (sections 6 and 7): `find_duplicates`
(twinTrim/flagController.py, not under src/) returns the duplicate report
together with the advisory per-file warning side channel; only an invalid
root and pool exhaustion are fatal, every per-file hash failure is recorded
as a warning and its path excluded from grouping. -/
def find_duplicates {α β : Type} [DecidableEq α] [DecidableEq β] (inp : EngineInput α β) :
    Except ErrKind (List (α × α) × List (α × ErrKind)) :=
  if inp.rootIsDir = false then .error .invalidRoot
  else if inp.poolOk = false then .error .poolExhaustion
  else .ok (groupResults inp.scan inp.results,
    (inp.scan.filter (fun p => (digOf inp.results p).isNone)).map
      (fun p => (p, ErrKind.hashFailure)))

/-- The observable external effects of one cli run: terminal output, the
export file write, the interactive checkbox prompt (recorded with the
choice labels offered), and calls to the external remove operation. -/
inductive Event where
  | echo (color : PyStr) (msg : PyStr)
  | exportWrite (file : PyStr) (content : PyStr)
  | prompt (choices : List PyStr)
  | remove (path : PyStr)
deriving DecidableEq

def INFO_COLOR : PyStr := "blue".toList

def WARNING_COLOR : PyStr := "yellow".toList

def SUCCESS_COLOR : PyStr := "green".toList

def ERROR_COLOR : PyStr := "red".toList

def errorFindingMsg : PyStr :=
  "Error while finding duplicates. Check the log for details.".toList

def noDuplicatesMsg : PyStr := "No duplicate files found.".toList

def foundMsg (n : Nat) : PyStr :=
  "Found ".toList ++ natStr n ++ " sets of duplicate files:".toList

/-- The space-saved line of flags.py line 73.  The two-decimal floating
point MB rendering is not modelled; the message carries the exact byte
total the rendering is derived from, which no claim inspects. -/
def spaceSavedMsg (total : Nat) : PyStr :=
  "Total potential space saved: ".toList ++ natStr total

def originalMsg (o : PyStr) : PyStr :=
  "Original file: \"".toList ++ o ++ "\"".toList

def countMsg (n : Nat) : PyStr :=
  "Number of duplicate files found: ".toList ++ natStr n

def theyAreMsg : PyStr := "They are:".toList

def canceledMsg : PyStr := "File deletion canceled.".toList

def previewActiveMsg : PyStr := "Preview mode active - No files will be deleted.".toList

def dupDetailMsg (d : PyStr) (size : Nat) : PyStr :=
  "Duplicate: ".toList ++ d ++ " (Size: ".toList ++ natStr size ++ " bytes)".toList

def exportedMsg (f : PyStr) : PyStr := "Duplicate details exported to ".toList ++ f

/-- The regrouping of the engine's (original, duplicate) pairs into Python's
insertion-ordered defaultdict (flags.py lines 67-69), materialized as the
items() sequence the later loops iterate over. -/
def dictItems (pairs : List (PyStr × PyStr)) : List (PyStr × List PyStr) :=
  (keysInOrder (pairs.map Prod.fst)).map (fun o =>
    (o, (pairs.filter (fun pr => decide (pr.1 = o))).map Prod.snd))

/-- Sum of the sizes of every listed duplicate (flags.py line 72). -/
def totalSize (gs : PyStr → Nat) (items : List (PyStr × List PyStr)) : Nat :=
  (items.flatMap (fun od => od.2.map gs)).sum

/-- The checkbox choice labels for one duplicate set (flags.py lines 97-99). -/
def fileOptions (gs : PyStr → Nat) (dl : List PyStr) : List PyStr :=
  dl.enum.map (fun id => mkOption id.1 id.2 (gs id.2))

/-- The body of the export block (flags.py lines 76-81); the trailing
space-saved line reuses the unrendered byte total, as in spaceSavedMsg. -/
def exportContent (gs : PyStr → Nat) (items : List (PyStr × List PyStr)) (total : Nat) :
    PyStr :=
  (items.flatMap (fun od =>
    "Original file: ".toList ++ od.1 ++ "\n".toList ++
    od.2.flatMap (fun d =>
      "  Duplicate: ".toList ++ d ++ " (Size: ".toList ++ natStr (gs d)
        ++ " bytes)\n".toList)))
  ++ "\nTotal potential space saved: ".toList ++ natStr total ++ "\n".toList

/-- One iteration of the interactive loop (flags.py lines 91-123): present
the set, prompt, and delete the decoded selections only when the prompt
returned answers with confirm set; a cancelled prompt (answers is None) or
a declined confirmation deletes nothing. -/
def handleSet (gs : PyStr → Nat) (ans : Option (List PyStr × Bool)) (o : PyStr)
    (dl : List PyStr) : List Event :=
  [Event.echo INFO_COLOR (originalMsg o),
   Event.echo INFO_COLOR (countMsg dl.length),
   Event.echo INFO_COLOR theyAreMsg,
   Event.prompt (fileOptions gs dl)] ++
  match ans with
  | some (sel, true) => (sel.map (decodeOption dl)).map Event.remove
  | _ => [Event.echo WARNING_COLOR canceledMsg]

/-- The interactive loop over the dict items, answers indexed by iteration
position. -/
def interactiveLoop (gs : PyStr → Nat) (answers : Nat → Option (List PyStr × Bool))
    (items : List (PyStr × List PyStr)) : List Event :=
  items.enum.flatMap (fun kod => handleSet gs (answers kod.1) kod.2.1 kod.2.2)

/-- The preview block (flags.py lines 84-89): list every duplicate and stop. -/
def previewEvents (gs : PyStr → Nat) (items : List (PyStr × List PyStr)) : List Event :=
  Event.echo SUCCESS_COLOR previewActiveMsg ::
  items.flatMap (fun od => od.2.map (fun d => Event.echo INFO_COLOR (dupDetailMsg d (gs d))))

/-- The export block events (flags.py lines 75-82). -/
def exportEvents (gs : PyStr → Nat) (exportOpt : Option PyStr)
    (items : List (PyStr × List PyStr)) (total : Nat) : List Event :=
  match exportOpt with
  | some f => [Event.exportWrite f (exportContent gs items total),
      Event.echo SUCCESS_COLOR (exportedMsg f)]
  | none => []

/-- flags.py lines 59-123: everything after a successful find_duplicates
call. -/
def cliAfterDetect (preview : Bool) (exportOpt : Option PyStr) (gs : PyStr → Nat)
    (answers : Nat → Option (List PyStr × Bool)) (duplicates : List (PyStr × PyStr)) :
    List Event :=
  if duplicates = [] then [Event.echo SUCCESS_COLOR noDuplicatesMsg]
  else
    Event.echo WARNING_COLOR (foundMsg duplicates.length) ::
    Event.echo SUCCESS_COLOR (spaceSavedMsg (totalSize gs (dictItems duplicates))) ::
    (exportEvents gs exportOpt (dictItems duplicates) (totalSize gs (dictItems duplicates)) ++
      (if preview then previewEvents gs (dictItems duplicates)
       else interactiveLoop gs answers (dictItems duplicates)))

/-- Modelled from the spec (design notes; twinTrim/flagController.py is not
under src/): the --all path deletes every duplicate of the detection report
(never an original) without prompting; a failed detection deletes nothing. -/
def handleAllFlag (detect : Except PyStr (List (PyStr × PyStr))) : List Event :=
  match detect with
  | .error _ => []
  | .ok dups => dups.map (fun pr => Event.remove pr.2)

/-- The cli command of flags.py from line 44 on.  The detect argument stands
for the outcome of the find_duplicates call at line 53: ok with the pair
list, or error with the message of an exception caught at lines 54-57. -/
def cli (allFlag preview : Bool) (exportOpt : Option PyStr)
    (detect : Except PyStr (List (PyStr × PyStr))) (gs : PyStr → Nat)
    (answers : Nat → Option (List PyStr × Bool)) : List Event :=
  if allFlag then handleAllFlag detect
  else
    match detect with
    | .error _ => [Event.echo ERROR_COLOR errorFindingMsg]
    | .ok duplicates => cliAfterDetect preview exportOpt gs answers duplicates

/-- The paths a run hands to the external remove operation. -/
def removedPaths (evs : List Event) : List PyStr :=
  evs.filterMap (fun ev => match ev with | Event.remove p => some p | _ => none)

/-- The paths the caller explicitly chose for deletion: with --all, every
duplicate of the report (chosen wholesale by passing the flag); otherwise
the paths displayed by the checkbox labels the user selected in prompts
whose confirmation was accepted. -/
def chosenPaths (allFlag : Bool) (detect : Except PyStr (List (PyStr × PyStr)))
    (answers : Nat → Option (List PyStr × Bool)) : List PyStr :=
  match detect with
  | .error _ => []
  | .ok dups =>
    if allFlag then dups.map Prod.snd
    else (dictItems dups).enum.flatMap (fun kod =>
      match answers kod.1 with
      | some (sel, true) => sel.map labelPath
      | _ => [])

theorem mem_removedPaths {p : PyStr} {evs : List Event} :
    p ∈ removedPaths evs ↔ Event.remove p ∈ evs := by
  rw [removedPaths, List.mem_filterMap]
  constructor
  · rintro ⟨a, ha, heq⟩
    cases a <;> simp_all
  · intro h
    exact ⟨Event.remove p, h, rfl⟩

theorem dupSets_mem {α β : Type} [DecidableEq α] [DecidableEq β] {scan : List α} {d : α → β}
    {s : α × List α} (hs : s ∈ dupSets scan d) :
    s.1 ∈ scan ∧ ∀ q ∈ s.2, q ∈ scan := by
  rw [dupSets, List.mem_filterMap] at hs
  obtain ⟨k, _, hmatch⟩ := hs
  rcases hfil : scan.filter (fun p => decide (d p = k)) with _ | ⟨p, _ | ⟨q, rest⟩⟩ <;>
    rw [hfil] at hmatch <;> simp at hmatch
  have hsub : ∀ x ∈ p :: q :: rest, x ∈ scan := by
    intro x hx
    exact List.mem_of_mem_filter (hfil ▸ hx)
  subst hmatch
  exact ⟨hsub p (by simp), fun x hx => hsub x (List.mem_cons_of_mem _ hx)⟩

theorem dupSets_original_not_mem {α β : Type} [DecidableEq α] [DecidableEq β]
    {scan : List α} {d : α → β} (hscan : scan.Nodup) {s : α × List α}
    (hs : s ∈ dupSets scan d) : s.1 ∉ s.2 := by
  rw [dupSets, List.mem_filterMap] at hs
  obtain ⟨k, _, hmatch⟩ := hs
  rcases hfil : scan.filter (fun p => decide (d p = k)) with _ | ⟨p, _ | ⟨q, rest⟩⟩ <;>
    rw [hfil] at hmatch <;> simp at hmatch
  have hnd : (scan.filter (fun p => decide (d p = k))).Nodup := hscan.filter _
  rw [hfil] at hnd
  subst hmatch
  exact (List.nodup_cons.mp hnd).1

theorem dupPairs_mem {α β : Type} [DecidableEq α] [DecidableEq β] {scan : List α}
    {d : α → β} {pr : α × α} (h : pr ∈ dupPairs scan d) : pr.1 ∈ scan ∧ pr.2 ∈ scan := by
  rw [dupPairs, List.mem_flatMap] at h
  obtain ⟨s, hs, hpr⟩ := h
  obtain ⟨q, hq, rfl⟩ := List.mem_map.mp hpr
  obtain ⟨h1, h2⟩ := dupSets_mem hs
  exact ⟨h1, h2 q hq⟩

theorem pyLookup_eq_some {α β : Type} [DecidableEq α] {l : List (α × β)} {a : α} {b : β}
    (hnd : (l.map Prod.fst).Nodup) (hmem : (a, b) ∈ l) : pyLookup a l = some b := by
  induction l with
  | nil => simp at hmem
  | cons x l ih =>
    obtain ⟨x1, x2⟩ := x
    rw [pyLookup]
    rcases List.mem_cons.mp hmem with heq | htl
    · obtain ⟨rfl, rfl⟩ := Prod.mk.injEq .. ▸ heq.symm
      exact if_pos rfl
    · rw [List.map_cons, List.nodup_cons] at hnd
      by_cases hx : x1 = a
      · exact absurd (List.mem_map.mpr ⟨(a, b), htl, rfl⟩) (hx ▸ hnd.1)
      · rw [if_neg hx]
        exact ih hnd.2 htl

theorem digOf_canonical {α β : Type} [DecidableEq α] {scan : List α} {h : α → Option β}
    {res : List (α × Option β)} (hnd : scan.Nodup)
    (hperm : res.Perm (scan.map (fun p => (p, h p)))) :
    ∀ p ∈ scan, digOf res p = h p := by
  intro p hp
  have hkeys : (res.map Prod.fst).Perm scan := by
    have h2 : List.map Prod.fst (scan.map (fun p => (p, h p))) = scan := by
      rw [List.map_map]
      exact (List.map_congr_left fun a ha => rfl).trans (List.map_id _)
    exact h2 ▸ hperm.map Prod.fst
  have hknd : (res.map Prod.fst).Nodup := hnd.perm hkeys.symm
  have hmem : (p, h p) ∈ res :=
    hperm.mem_iff.mpr (List.mem_map.mpr ⟨p, hp, rfl⟩)
  rw [digOf, pyLookup_eq_some hknd hmem]

theorem dupSets_congr {α β : Type} [DecidableEq α] [DecidableEq β] {scan : List α}
    {d1 d2 : α → β} (h : ∀ p ∈ scan, d1 p = d2 p) : dupSets scan d1 = dupSets scan d2 := by
  rw [dupSets, dupSets, List.map_congr_left h]
  congr 1
  funext k
  rw [List.filter_congr (fun p hp => decide_eq_decide.mpr (by rw [h p hp]))]

theorem dupPairs_congr {α β : Type} [DecidableEq α] [DecidableEq β] {scan : List α}
    {d1 d2 : α → β} (h : ∀ p ∈ scan, d1 p = d2 p) : dupPairs scan d1 = dupPairs scan d2 := by
  rw [dupPairs, dupPairs, dupSets_congr h]

theorem groupResults_congr {α β : Type} [DecidableEq α] [DecidableEq β] {scan : List α}
    {res1 res2 : List (α × Option β)}
    (h : ∀ p ∈ scan, digOf res1 p = digOf res2 p) :
    groupResults scan res1 = groupResults scan res2 := by
  rw [groupResults, groupResults,
    List.filter_congr (fun p hp => by rw [h p hp])]
  exact dupPairs_congr (fun p hp => h p (List.mem_of_mem_filter hp))

theorem foldl_addFileExclude (base : FileFilter) (ex : List PyStr) :
    ex.foldl (fun f e => f.addFileExclude e) base
      = ⟨base.minFileSize, base.maxFileSize, base.fileType, base.fileExcludes ++ ex⟩ := by
  induction ex generalizing base with
  | nil => simp
  | cons e ex ih => rw [List.foldl_cons, ih]; simp [FileFilter.addFileExclude]

/-- C9: the checkbox label encoding and decoding form a round-trip: for
every duplicates list and every label generated as
`<index+1>) <path> (Size: <n> bytes)`, parsing the text before the first
right parenthesis as an integer and indexing the list with it minus one
returns exactly the path that label displays, for all paths, including
paths that themselves contain right-parenthesis characters. -/
theorem claim9_label_roundtrip (dl : List PyStr) (gs : PyStr → Nat) (i : Nat)
    (hi : i < dl.length) :
    decodeOption dl (mkOption i (dl.get ⟨i, hi⟩) (gs (dl.get ⟨i, hi⟩))) = dl.get ⟨i, hi⟩ ∧
    labelPath (mkOption i (dl.get ⟨i, hi⟩) (gs (dl.get ⟨i, hi⟩))) = dl.get ⟨i, hi⟩ := by
  refine ⟨?_, labelPath_mkOption ..⟩
  rw [decodeOption_mkOption, List.getD_eq_getElem dl [] hi]
  simp

/-- C9 witness: the round-trip at index 0 of a two-element duplicates list
whose first path contains a right parenthesis. -/
theorem claim9_label_roundtrip_witness :
    decodeOption ["a)b".toList, "c".toList]
        (mkOption 0 (["a)b".toList, "c".toList].get ⟨0, by decide⟩)
          ((fun _ => 5) (["a)b".toList, "c".toList].get ⟨0, by decide⟩)))
      = ["a)b".toList, "c".toList].get ⟨0, by decide⟩ ∧
    labelPath (mkOption 0 (["a)b".toList, "c".toList].get ⟨0, by decide⟩)
          ((fun _ => 5) (["a)b".toList, "c".toList].get ⟨0, by decide⟩)))
      = ["a)b".toList, "c".toList].get ⟨0, by decide⟩ :=
  claim9_label_roundtrip ["a)b".toList, "c".toList] (fun _ => 5) 0 (by decide)

/-- C8: in every duplicate set of the grouped report the original is never
among that set's duplicates (for a duplicate-free scan order), and the
cli's regrouping of the pair list into the original-to-duplicates mapping
puts an original into its own duplicates list exactly when the detection
output contained a pair whose two components are equal. -/
theorem claim8_original_never_duplicate {α β : Type} [DecidableEq α] [DecidableEq β]
    (scan : List α) (d : α → β) (hscan : scan.Nodup)
    (pairs : List (PyStr × PyStr)) :
    (∀ s ∈ dupSets scan d, s.1 ∉ s.2) ∧
    (∀ od ∈ dictItems pairs, od.1 ∈ od.2 ↔ (od.1, od.1) ∈ pairs) := by
  refine ⟨fun s hs => dupSets_original_not_mem hscan hs, ?_⟩
  intro od hod
  rw [dictItems, List.mem_map] at hod
  obtain ⟨o, _, rfl⟩ := hod
  simp only [List.mem_map, List.mem_filter, decide_eq_true_eq]
  constructor
  · rintro ⟨⟨a, b⟩, ⟨hmem, h1⟩, h2⟩
    simp only at h1 h2
    subst h1; subst h2
    exact hmem
  · intro hmem
    exact ⟨(o, o), ⟨hmem, rfl⟩, rfl⟩

/-- C8 witness: a three-path scan with one duplicated digest, and a pair
list with distinct components. -/
theorem claim8_original_never_duplicate_witness :
    (∀ s ∈ dupSets [0, 1, 2] (fun p => if p ≤ 1 then 0 else 1), s.1 ∉ s.2) ∧
    (∀ od ∈ dictItems [("a".toList, "b".toList)],
      od.1 ∈ od.2 ↔ (od.1, od.1) ∈ [("a".toList, "b".toList)]) :=
  claim8_original_never_duplicate [0, 1, 2] (fun p => if p ≤ 1 then 0 else 1)
    (by decide) [("a".toList, "b".toList)]

/-- C2: for every engine run, only the fatal kinds invalidRoot and
poolExhaustion can surface as a failed call; when root and pool are fine
the call succeeds, and every path whose hashing failed is excluded from the
report and recorded in the warning side channel instead. -/
theorem claim2_error_propagation {α β : Type} [DecidableEq α] [DecidableEq β]
    (inp : EngineInput α β) :
    (∀ e, find_duplicates inp = Except.error e →
      e = ErrKind.invalidRoot ∨ e = ErrKind.poolExhaustion) ∧
    (inp.rootIsDir = true → inp.poolOk = true →
      ∃ report warnings, find_duplicates inp = Except.ok (report, warnings) ∧
        ∀ p, digOf inp.results p = none →
          (∀ pr ∈ report, pr.1 ≠ p ∧ pr.2 ≠ p) ∧
          (p ∈ inp.scan → (p, ErrKind.hashFailure) ∈ warnings)) := by
  constructor
  · intro e he
    rw [find_duplicates] at he
    by_cases h1 : inp.rootIsDir = false
    · rw [if_pos h1] at he
      exact Or.inl (Except.error.inj he).symm
    · rw [if_neg h1] at he
      by_cases h2 : inp.poolOk = false
      · rw [if_pos h2] at he
        exact Or.inr (Except.error.inj he).symm
      · rw [if_neg h2] at he
        exact absurd he (by simp)
  · intro hroot hpool
    refine ⟨groupResults inp.scan inp.results,
      (inp.scan.filter (fun p => (digOf inp.results p).isNone)).map
        (fun p => (p, ErrKind.hashFailure)), ?_, ?_⟩
    · rw [find_duplicates, if_neg (by simp [hroot]), if_neg (by simp [hpool])]
    · intro p hp
      constructor
      · intro pr hpr
        have hmem := dupPairs_mem hpr
        have hnot : p ∉ inp.scan.filter (fun q => (digOf inp.results q).isSome) := by
          intro hc
          have := (List.mem_filter.mp hc).2
          rw [hp] at this
          simp at this
        constructor
        · intro hc; exact hnot (hc ▸ hmem.1)
        · intro hc; exact hnot (hc ▸ hmem.2)
      · intro hscan
        exact List.mem_map.mpr ⟨p, List.mem_filter.mpr ⟨hscan, by simp [hp]⟩, rfl⟩

/-- C2 witness: a run over two paths, one of which fails to hash; the call
succeeds and the failed path is excluded and recorded. -/
theorem claim2_error_propagation_witness :
    (∀ e, find_duplicates (EngineInput.mk true true [0, 1] [(0, some 7), (1, none)])
        = Except.error e → e = ErrKind.invalidRoot ∨ e = ErrKind.poolExhaustion) ∧
    (true = true → true = true →
      ∃ report warnings,
        find_duplicates (EngineInput.mk true true [0, 1] [(0, some 7), (1, (none : Option Nat))])
          = Except.ok (report, warnings) ∧
        ∀ p, digOf [(0, some 7), (1, (none : Option Nat))] p = none →
          (∀ pr ∈ report, pr.1 ≠ p ∧ pr.2 ≠ p) ∧
          (p ∈ [0, 1] → (p, ErrKind.hashFailure) ∈ warnings)) :=
  claim2_error_propagation (EngineInput.mk true true [0, 1] [(0, some 7), (1, none)])

/-- C3: a completed detection that finds no duplicates is success with the
fixed no-duplicates message; a failed detection produces the fixed error
message; the two outputs are distinguishable. -/
theorem claim3_empty_report_success (preview : Bool) (exportOpt : Option PyStr)
    (gs : PyStr → Nat) (answers : Nat → Option (List PyStr × Bool)) (e : PyStr) :
    cli false preview exportOpt (Except.ok []) gs answers
      = [Event.echo SUCCESS_COLOR noDuplicatesMsg] ∧
    cli false preview exportOpt (Except.error e) gs answers
      = [Event.echo ERROR_COLOR errorFindingMsg] ∧
    Event.echo SUCCESS_COLOR noDuplicatesMsg ≠ Event.echo ERROR_COLOR errorFindingMsg := by
  refine ⟨?_, ?_, by decide⟩
  · simp [cli, cliAfterDetect]
  · simp [cli]

/-- C5 counterexample: the invocation --min-size 2gb --max-size 1kb builds,
exactly the way the cli does, a FileFilter whose minimum size bound exceeds
its maximum, so the claimed minSize ≤ maxSize invariant does not hold for
every invocation. -/
theorem claim5_counterexample :
    ¬ ((cliFilter "2gb".toList "1kb".toList ".*".toList []).minFileSize ≤
       (cliFilter "2gb".toList "1kb".toList ".*".toList []).maxFileSize) := by decide

/-- C5 (amended): the FileFilter is built exactly once from the
user-supplied options before detection starts and its fields are exactly
the parsed options (nothing later rebuilds or mutates it), and it satisfies
minSize ≤ maxSize whenever the parsed minimum is at most the parsed
maximum, as is the case for the default options 0kb and 1gb. -/
theorem claim5_filter_construction (mn mx ft : PyStr) (ex : List PyStr)
    (hmm : parse_size mn ≤ parse_size mx) :
    (cliFilter mn mx ft ex).minFileSize = parse_size mn ∧
    (cliFilter mn mx ft ex).maxFileSize = parse_size mx ∧
    (cliFilter mn mx ft ex).fileType = ft ∧
    (cliFilter mn mx ft ex).fileExcludes = ex ∧
    (cliFilter mn mx ft ex).minFileSize ≤ (cliFilter mn mx ft ex).maxFileSize := by
  have h : cliFilter mn mx ft ex
      = ⟨parse_size mn, parse_size mx, ft, ex⟩ := by
    rw [cliFilter, foldl_addFileExclude]
    simp [FileFilter.init, FileFilter.setMinFileSize, FileFilter.setMaxFileSize,
      FileFilter.setFileType]
  rw [h]
  exact ⟨rfl, rfl, rfl, rfl, hmm⟩

/-- C5 witness: the default options 0kb and 1gb satisfy the parsed-bound
hypothesis, and the built filter carries them. -/
theorem claim5_filter_construction_witness :
    (cliFilter "0kb".toList "1gb".toList ".*".toList []).minFileSize
      = parse_size "0kb".toList ∧
    (cliFilter "0kb".toList "1gb".toList ".*".toList []).maxFileSize
      = parse_size "1gb".toList ∧
    (cliFilter "0kb".toList "1gb".toList ".*".toList []).fileType = ".*".toList ∧
    (cliFilter "0kb".toList "1gb".toList ".*".toList []).fileExcludes = [] ∧
    (cliFilter "0kb".toList "1gb".toList ".*".toList []).minFileSize ≤
      (cliFilter "0kb".toList "1gb".toList ".*".toList []).maxFileSize :=
  claim5_filter_construction "0kb".toList "1gb".toList ".*".toList [] (by decide)

/-- C7: on a failed detection pass no part of the report is published: in
interactive mode the whole output is the single fixed error line (so no set
count, no space total, no export write, no prompt and no removal is ever
emitted), and on the --all path a failed pass emits nothing at all. -/
theorem claim7_no_partial_publication (preview : Bool) (exportOpt : Option PyStr)
    (gs : PyStr → Nat) (answers : Nat → Option (List PyStr × Bool)) (e : PyStr) :
    cli false preview exportOpt (Except.error e) gs answers
      = [Event.echo ERROR_COLOR errorFindingMsg] ∧
    cli true preview exportOpt (Except.error e) gs answers = [] := by
  constructor <;> simp [cli, handleAllFlag]

/-- C6: determinism across repeated runs: two engine runs over the same
unmodified scan with the same per-path hash outcomes return identical
results (same report content and ordering, same warnings, or the same
fatal error), whatever order each run's worker pool happened to deliver
the hashing results in. -/
theorem claim6_determinism {α β : Type} [DecidableEq α] [DecidableEq β]
    (rootIsDir poolOk : Bool) (scan : List α) (h : α → Option β)
    (res1 res2 : List (α × Option β)) (hnd : scan.Nodup)
    (h1 : res1.Perm (scan.map (fun p => (p, h p))))
    (h2 : res2.Perm (scan.map (fun p => (p, h p)))) :
    find_duplicates (EngineInput.mk rootIsDir poolOk scan res1)
      = find_duplicates (EngineInput.mk rootIsDir poolOk scan res2) := by
  have hdig : ∀ p ∈ scan, digOf res1 p = digOf res2 p := fun p hp => by
    rw [digOf_canonical hnd h1 p hp, digOf_canonical hnd h2 p hp]
  rw [find_duplicates, find_duplicates]
  by_cases hr : rootIsDir = false
  · rw [if_pos hr, if_pos hr]
  · rw [if_neg hr, if_neg hr]
    by_cases hpo : poolOk = false
    · rw [if_pos hpo, if_pos hpo]
    · rw [if_neg hpo, if_neg hpo]
      have hwarn : scan.filter (fun p => (digOf res1 p).isNone)
          = scan.filter (fun p => (digOf res2 p).isNone) :=
        List.filter_congr (fun p hp => by rw [hdig p hp])
      show Except.ok (groupResults scan res1,
          (scan.filter (fun p => (digOf res1 p).isNone)).map
            (fun p => (p, ErrKind.hashFailure)))
        = Except.ok (groupResults scan res2,
          (scan.filter (fun p => (digOf res2 p).isNone)).map
            (fun p => (p, ErrKind.hashFailure)))
      rw [groupResults_congr hdig, hwarn]

/-- C6 witness: a three-path scan with a duplicated digest, the results
delivered once in scan order and once reversed. -/
theorem claim6_determinism_witness :
    find_duplicates (EngineInput.mk true true [0, 1, 2]
        [(0, some 0), (1, some 0), (2, some 1)])
      = find_duplicates (EngineInput.mk true true [0, 1, 2]
        [(2, some 1), (1, some 0), (0, some 0)]) :=
  claim6_determinism true true [0, 1, 2] (fun p => some (if p ≤ 1 then 0 else 1))
    [(0, some 0), (1, some 0), (2, some 1)] [(2, some 1), (1, some 0), (0, some 0)]
    (by decide) (by decide) (by decide)

/-- C10: with --preview set and --all not set, the remove operation is
never invoked and no interactive prompt is shown: every emitted event is
plain output, whatever the detection outcome, export option and prompt
answers. -/
theorem claim10_preview_frame (exportOpt : Option PyStr)
    (detect : Except PyStr (List (PyStr × PyStr))) (gs : PyStr → Nat)
    (answers : Nat → Option (List PyStr × Bool)) :
    ∀ ev ∈ cli false true exportOpt detect gs answers,
      (∀ p, ev ≠ Event.remove p) ∧ (∀ ch, ev ≠ Event.prompt ch) := by
  intro ev hev
  rcases detect with e | dups
  · simp [cli] at hev
    subst hev
    exact ⟨fun p => by simp, fun ch => by simp⟩
  · by_cases hd : dups = []
    · subst hd
      simp [cli, cliAfterDetect] at hev
      subst hev
      exact ⟨fun p => by simp, fun ch => by simp⟩
    · rcases exportOpt with _ | f <;>
        simp [cli, cliAfterDetect, hd, previewEvents, exportEvents,
          List.mem_flatMap, List.mem_map] at hev <;>
        casesm* _ ∨ _, Exists _, _ ∧ _ <;>
        subst_vars <;>
        exact ⟨fun p => by simp, fun ch => by simp⟩

/-- C10 witness: the first output line of a preview run over one duplicate
pair is neither a removal nor a prompt. -/
theorem claim10_preview_frame_witness :
    (∀ p, Event.echo WARNING_COLOR (foundMsg 1) ≠ Event.remove p) ∧
    (∀ ch, Event.echo WARNING_COLOR (foundMsg 1) ≠ Event.prompt ch) :=
  claim10_preview_frame none (Except.ok [("a".toList, "b".toList)]) (fun _ => 5)
    (fun _ => none) (Event.echo WARNING_COLOR (foundMsg 1)) (by decide)

theorem removedPaths_append (a b : List Event) :
    removedPaths (a ++ b) = removedPaths a ++ removedPaths b :=
  List.filterMap_append a b _

theorem removedPaths_removeMap (ps : List PyStr) :
    removedPaths (ps.map Event.remove) = ps := by
  induction ps with
  | nil => rfl
  | cons p ps ih => rw [List.map_cons, removedPaths, List.filterMap_cons]; simp [removedPaths] at ih ⊢; exact ih

theorem removedPaths_handleSet (gs : PyStr → Nat) (ans : Option (List PyStr × Bool))
    (o : PyStr) (dl : List PyStr) :
    removedPaths (handleSet gs ans o dl)
      = match ans with
        | some (sel, true) => sel.map (decodeOption dl)
        | _ => [] := by
  rcases ans with _ | ⟨sel, b⟩
  · simp [handleSet, removedPaths]
  · rcases b with _ | _
    · simp [handleSet, removedPaths]
    · rw [handleSet, removedPaths_append]
      have h1 : removedPaths [Event.echo INFO_COLOR (originalMsg o),
          Event.echo INFO_COLOR (countMsg dl.length),
          Event.echo INFO_COLOR theyAreMsg,
          Event.prompt (fileOptions gs dl)] = [] := rfl
      rw [h1, removedPaths_removeMap]
      rfl

/-- C4: in interactive mode, per presented duplicate set: a cancelled
prompt or a declined confirmation removes nothing; when the user confirms a
selection of the presented labels, the files handed to the remove
operation are exactly the paths those selected labels display, each a
member of the set's duplicates list and never the set's original. -/
theorem claim4_interactive_deletion (gs : PyStr → Nat) (o : PyStr) (dl : List PyStr)
    (sel : List PyStr) (ho : o ∉ dl)
    (hsel : ∀ lab ∈ sel, ∃ i, ∃ hi : i < dl.length,
      lab = mkOption i (dl.get ⟨i, hi⟩) (gs (dl.get ⟨i, hi⟩))) :
    removedPaths (handleSet gs none o dl) = [] ∧
    removedPaths (handleSet gs (some (sel, false)) o dl) = [] ∧
    removedPaths (handleSet gs (some (sel, true)) o dl) = sel.map labelPath ∧
    ∀ p ∈ removedPaths (handleSet gs (some (sel, true)) o dl), p ∈ dl ∧ p ≠ o := by
  have hdec : ∀ lab ∈ sel, decodeOption dl lab = labelPath lab := by
    intro lab hlab
    obtain ⟨i, hi, rfl⟩ := hsel lab hlab
    rw [decodeOption_mkOption, labelPath_mkOption, List.getD_eq_getElem dl [] hi]
    simp
  have hmain : removedPaths (handleSet gs (some (sel, true)) o dl)
      = sel.map labelPath := by
    rw [removedPaths_handleSet]
    exact List.map_congr_left hdec
  refine ⟨by rw [removedPaths_handleSet], by rw [removedPaths_handleSet],
    hmain, ?_⟩
  intro p hp
  rw [hmain] at hp
  obtain ⟨lab, hlab, rfl⟩ := List.mem_map.mp hp
  obtain ⟨i, hi, rfl⟩ := hsel lab hlab
  rw [labelPath_mkOption]
  have hmem : dl.get ⟨i, hi⟩ ∈ dl := dl.get_mem i hi
  exact ⟨hmem, fun hc => ho (hc ▸ hmem)⟩

/-- C4 witness: one set with original o and duplicates x, y; the user
selects the label of x and confirms. -/
theorem claim4_interactive_deletion_witness :
    removedPaths (handleSet (fun _ => 5) none "o".toList ["x".toList, "y".toList]) = [] ∧
    removedPaths (handleSet (fun _ => 5)
        (some ([mkOption 0 "x".toList 5], false)) "o".toList ["x".toList, "y".toList]) = [] ∧
    removedPaths (handleSet (fun _ => 5)
        (some ([mkOption 0 "x".toList 5], true)) "o".toList ["x".toList, "y".toList])
      = [mkOption 0 "x".toList 5].map labelPath ∧
    ∀ p ∈ removedPaths (handleSet (fun _ => 5)
        (some ([mkOption 0 "x".toList 5], true)) "o".toList ["x".toList, "y".toList]),
      p ∈ ["x".toList, "y".toList] ∧ p ≠ "o".toList :=
  claim4_interactive_deletion (fun _ => 5) "o".toList ["x".toList, "y".toList]
    [mkOption 0 "x".toList 5] (by decide)
    (by
      intro lab hlab
      rw [List.mem_singleton] at hlab
      subst hlab
      exact ⟨0, ⟨by decide, rfl⟩⟩)

theorem removedPaths_cons_echo (c m : PyStr) (evs : List Event) :
    removedPaths (Event.echo c m :: evs) = removedPaths evs := rfl

theorem removedPaths_flatMap {γ : Type} (l : List γ) (f : γ → List Event) :
    removedPaths (l.flatMap f) = l.flatMap (fun a => removedPaths (f a)) := by
  induction l with
  | nil => rfl
  | cons a l ih => rw [List.flatMap_cons, removedPaths_append, ih, List.flatMap_cons]

theorem removedPaths_map_echo {γ : Type} (c : PyStr) (m : γ → PyStr) (l : List γ) :
    removedPaths (l.map (fun d => Event.echo c (m d))) = [] := by
  induction l with
  | nil => rfl
  | cons a l ih => rw [List.map_cons, removedPaths_cons_echo, ih]

theorem removedPaths_exportEvents (gs : PyStr → Nat) (exportOpt : Option PyStr)
    (items : List (PyStr × List PyStr)) (total : Nat) :
    removedPaths (exportEvents gs exportOpt items total) = [] := by
  rcases exportOpt with _ | f <;> rfl

theorem removedPaths_previewEvents (gs : PyStr → Nat)
    (items : List (PyStr × List PyStr)) :
    removedPaths (previewEvents gs items) = [] := by
  rw [previewEvents, removedPaths_cons_echo, removedPaths_flatMap]
  have h : (fun od : PyStr × List PyStr =>
      removedPaths (od.2.map fun d => Event.echo INFO_COLOR (dupDetailMsg d (gs d))))
      = fun _ => ([] : List PyStr) := by
    funext od
    exact removedPaths_map_echo _ _ _
  rw [h]
  induction items with
  | nil => rfl
  | cons a l ih => rw [List.flatMap_cons, ih]; rfl

/-- C1: over every branch of the cli (the --all path, a failed detection,
the empty report, export, preview, and the interactive prompts) the set of
paths handed to the external remove operation is a subset of the paths the
caller explicitly chose for deletion, provided the prompt answers select
among the labels actually presented for the set being prompted. -/
theorem claim1_removed_subset_chosen (allFlag preview : Bool) (exportOpt : Option PyStr)
    (detect : Except PyStr (List (PyStr × PyStr))) (gs : PyStr → Nat)
    (answers : Nat → Option (List PyStr × Bool))
    (hsel : ∀ dups, detect = Except.ok dups →
      ∀ kod ∈ (dictItems dups).enum, ∀ sel b, answers kod.1 = some (sel, b) →
        ∀ lab ∈ sel, ∃ i, ∃ hi : i < kod.2.2.length,
          lab = mkOption i (kod.2.2.get ⟨i, hi⟩) (gs (kod.2.2.get ⟨i, hi⟩))) :
    removedPaths (cli allFlag preview exportOpt detect gs answers)
      ⊆ chosenPaths allFlag detect answers := by
  intro p hp
  rcases detect with e | dups
  · cases allFlag <;> simp [cli, handleAllFlag, removedPaths] at hp
  · cases allFlag
    · by_cases hd : dups = []
      · subst hd
        simp [cli, cliAfterDetect, removedPaths] at hp
      · have hp2 : p ∈ removedPaths (cliAfterDetect preview exportOpt gs answers dups) := hp
        rw [cliAfterDetect, if_neg hd, removedPaths_cons_echo, removedPaths_cons_echo,
          removedPaths_append, removedPaths_exportEvents, List.nil_append] at hp2
        cases preview
        · have hp3 : p ∈ removedPaths (interactiveLoop gs answers (dictItems dups)) := hp2
          rw [interactiveLoop, removedPaths_flatMap] at hp3
          obtain ⟨kod, hkod, hmem⟩ := List.mem_flatMap.mp hp3
          rw [removedPaths_handleSet] at hmem
          rcases hans : answers kod.1 with _ | ⟨sel, b⟩
          · rw [hans] at hmem; simp at hmem
          · rcases b with _ | _
            · rw [hans] at hmem; simp at hmem
            · rw [hans] at hmem
              obtain ⟨lab, hlab, hdec⟩ := List.mem_map.mp hmem
              obtain ⟨i, hi, rfl⟩ := hsel dups rfl kod hkod sel true hans lab hlab
              show p ∈ (dictItems dups).enum.flatMap (fun kod =>
                match answers kod.1 with
                | some (sel, true) => sel.map labelPath
                | _ => [])
              refine List.mem_flatMap.mpr ⟨kod, hkod, ?_⟩
              rw [hans]
              refine List.mem_map.mpr ⟨_, hlab, ?_⟩
              rw [labelPath_mkOption, ← hdec, decodeOption_mkOption,
                List.getD_eq_getElem kod.2.2 [] hi]
              simp
        · have hp3 : p ∈ removedPaths (previewEvents gs (dictItems dups)) := hp2
          rw [removedPaths_previewEvents] at hp3
          simp at hp3
    · have hp2 : p ∈ removedPaths (dups.map (fun pr => Event.remove pr.2)) := hp
      rw [show dups.map (fun pr => Event.remove pr.2)
          = (dups.map Prod.snd).map Event.remove by rw [List.map_map]; rfl,
        removedPaths_removeMap] at hp2
      exact hp2

/-- C1 witness: an interactive run over two pairs sharing an original; the
user selects the first label of the set and confirms. -/
theorem claim1_removed_subset_chosen_witness :
    removedPaths (cli false false none
        (Except.ok [("o".toList, "x".toList), ("o".toList, "y".toList)]) (fun _ => 5)
        (fun k => if k = 0 then some ([mkOption 0 "x".toList 5], true) else none))
      ⊆ chosenPaths false
        (Except.ok [("o".toList, "x".toList), ("o".toList, "y".toList)])
        (fun k => if k = 0 then some ([mkOption 0 "x".toList 5], true) else none) :=
  claim1_removed_subset_chosen false false none
    (Except.ok [("o".toList, "x".toList), ("o".toList, "y".toList)]) (fun _ => 5)
    (fun k => if k = 0 then some ([mkOption 0 "x".toList 5], true) else none)
    (by
      intro dups hdet kod hkod sel b hans lab hlab
      obtain rfl : [("o".toList, "x".toList), ("o".toList, "y".toList)] = dups :=
        Except.ok.inj hdet
      have hkod2 : kod = (0, ("o".toList, ["x".toList, "y".toList])) :=
        List.mem_singleton.mp hkod
      subst hkod2
      have hans2 : (if (0 : Nat) = 0 then some ([mkOption 0 "x".toList 5], true)
          else none) = some (sel, b) := hans
      rw [if_pos rfl] at hans2
      obtain ⟨rfl, rfl⟩ : [mkOption 0 "x".toList 5] = sel ∧ true = b := by
        have h1 := Option.some.inj hans2
        exact ⟨congrArg Prod.fst h1, congrArg Prod.snd h1⟩
      rw [List.mem_singleton] at hlab
      subst hlab
      exact ⟨0, ⟨by decide, rfl⟩⟩)

end TwinTrim
